import Mathlib

/-!
Shallow embedding of the shimmer-zealy-nft-dropper repository
(`src/main.py`, `src/tools.py`) and proofs about the claims of its
specification.

External collaborators (the Zealy quest API, the IOTA/Shimmer wallet SDK,
the address-validity oracle, the clock and the environment) are modelled as
explicit parameters: a fetch result, an oracle function `String → Bool`,
timestamps passed in, and an environment function `String → Option String`.
Python exceptions that the code does not catch are modelled with `Except`;
functions that swallow an exception and return `None` are modelled with
`Option`.
-/

namespace Dropper

/-- A claimed-quest record as consumed from the Zealy API response
`{data: [{id, user: {id}, submission: {value}}]}` (tools.py
`get_zealy_api_data` callers read exactly these three fields). -/
structure ZealyItem where
  id : String
  userId : String
  submissionValue : String
deriving DecidableEq, Repr

/-- The parsed JSON body of a successful claimed-quests fetch. -/
structure ZealyResponse where
  data : List ZealyItem
deriving DecidableEq, Repr

/-!
## Quest data gateway (tools.py, `get_zealy_api_data`)

`get_zealy_api_data` performs the HTTP GET and JSON parse inside
`try: ... except Exception: logger.warning(...)`, so a transport or parse
failure makes it fall off the end and return `None`; a success returns the
parsed body.  We model the outcome of the request/parse step as an
`Except` value supplied by the environment.
-/

/-- Embedding of tools.py `get_zealy_api_data`: the `try` block either
produces a parsed response or raises; the `except` swallows the exception
(logging it) and returns `None`. -/
def getZealyApiData (fetch : Except String ZealyResponse) : Option ZealyResponse :=
  match fetch with
  | .ok r => some r
  | .error _ => none

/-- Embedding of main.py `get_nft_winners` from the point where the result
of `get_zealy_api_data` is in hand: the code subscripts
`nft_airdrop_quest_completers['data']` unconditionally, so a `None` result
raises an (uncaught) `TypeError`; otherwise it collects
`item['user']['id']` for each item, in order. -/
def getNftWinners (resp : Option ZealyResponse) : Except String (List String) :=
  match resp with
  | none => .error "TypeError"
  | some r => .ok (r.data.map (fun item => item.userId))

/-!
## Address extraction (main.py, `get_smr_address_submitters`)

The code runs `re.search(r"smr1\w+", smr_address)`: the leftmost substring
consisting of the literal `smr1` followed by one or more word characters,
the run of word characters taken greedily.  We model strings as `List Char`
for the scan and take the ASCII reading of `\w` (letters, digits and
underscore), which covers the address alphabet.
-/

/-- `\w` for the ASCII range: letters, digits, underscore. -/
def isWordChar (c : Char) : Bool :=
  c.isAlpha || c.isDigit || c = '_'

/-- Leftmost match of the pattern <pat>`\w+` in a character list: scan left
to right; at the first position where `pat` occurs followed by at least one
word character, return `pat` with the greedy run of word characters
appended; otherwise `none`.  `extractAddress` instantiates `pat` with the
hardcoded `smr1` of main.py line 96; the claim's reading instantiates it
with the configured human-readable part. -/
def searchPatWord (pat : List Char) : List Char → Option (List Char)
  | [] => none
  | c :: rest =>
    if pat.isPrefixOf (c :: rest) &&
        isWordChar (((c :: rest).drop pat.length).headD ' ') then
      some (pat ++ ((c :: rest).drop pat.length).takeWhile isWordChar)
    else
      searchPatWord pat rest

/-- Embedding of `re.search(r"smr1\w+", text)` in main.py
`get_smr_address_submitters` (line 96): the pattern is the fixed literal
`smr1`. -/
def extractAddress (text : List Char) : Option (List Char) :=
  searchPatWord ['s', 'm', 'r', '1'] text

/-- Modelled from the spec: "applies a prefix-anchored token match (the
network's human-readable address prefix followed by one or more word
characters); returns the first match or none" — the same scan, but anchored
at the *configured* human-readable part `hrp` instead of the hardcoded
literal. -/
def extractAddressSpec (hrp : List Char) (text : List Char) : Option (List Char) :=
  searchPatWord hrp text

/-- Embedding of the loop body of main.py `get_smr_address_submitters`
(lines 91–102): for each item take `item['user']['id']` and
`item['submission']['value']`, run the regex search; on a match append
`(user_id, match)`, otherwise `continue` (the record is dropped). -/
def getSmrAddressSubmittersLoop : List ZealyItem → List (String × List Char)
  | [] => []
  | item :: rest =>
    match extractAddress item.submissionValue.data with
    | some a => (item.userId, a) :: getSmrAddressSubmittersLoop rest
    | none => getSmrAddressSubmittersLoop rest

/-- Embedding of main.py `get_smr_address_submitters` from the point where
the `get_zealy_api_data` result is in hand: like `get_nft_winners` it
subscripts `['data']` unconditionally, so an absent result raises
`TypeError`. -/
def getSmrAddressSubmitters (resp : Option ZealyResponse) :
    Except String (List (String × List Char)) :=
  match resp with
  | none => .error "TypeError"
  | some r => .ok (getSmrAddressSubmittersLoop r.data)

/-!
## Send-history ledger filter (tools.py, `check_if_sent`)

`check_if_sent` reads the whole CSV file, builds
`{row[0]: True for row in csv_reader}` — which raises `IndexError` if some
row is empty — and then keeps exactly the input addresses that are not keys
of that dict, in input order.  We model the parsed CSV as a list of rows
(each a list of fields).
-/

/-- The keys of `{row[0]: True for row in csv_reader}`: the first field of
each row, `none` when some row is empty (Python raises `IndexError` on
`row[0]` there).  Duplicate keys collapse in the dict but membership over
the key list is the same. -/
def firstColumns : List (List String) → Option (List String)
  | [] => some []
  | row :: rest =>
    match row.head?, firstColumns rest with
    | some k, some ks => some (k :: ks)
    | _, _ => none

/-- Embedding of tools.py `check_if_sent`: build the dict of first-column
keys (raising `IndexError` on an empty row, modelled as `Except.error`),
then keep the input addresses not among the keys, preserving order. -/
def checkIfSent (rows : List (List String)) (addresses : List String) :
    Except String (List String) :=
  match firstColumns rows with
  | none => .error "IndexError"
  | some sentAddresses =>
      .ok (addresses.filter (fun a => !(sentAddresses.contains a)))

/-!
## Address validation and the verification loop
(tools.py `validate_shimmer_address`, main.py
`get_smr_address_from_quest_and_verify`)

`validate_shimmer_address` returns `True` iff the string starts with the
configured human-readable part *and* the external oracle
`IotaClient().is_address_valid` accepts it.  The oracle is a parameter.
-/

/-- Embedding of tools.py `validate_shimmer_address`: starts-with check on
the configured human-readable part, then the external validity oracle
(`IotaClient().is_address_valid`). -/
def validateShimmerAddress (oracle : List Char → Bool) (hrp : List Char)
    (a : List Char) : Bool :=
  hrp.isPrefixOf a && oracle a

/-- Helper for Python `str.split()`: accumulate the current token
(reversed) while scanning; a whitespace character closes the token, and
empty tokens are discarded. -/
def splitWsAux : List Char → List Char → List (List Char)
  | [], acc => if acc = [] then [] else [acc.reverse]
  | c :: rest, acc =>
    if c.isWhitespace then
      if acc = [] then splitWsAux rest []
      else acc.reverse :: splitWsAux rest []
    else
      splitWsAux rest (c :: acc)

/-- Python `str.split()` with no argument: split on runs of whitespace,
discarding empty pieces. -/
def splitWs (text : List Char) : List (List Char) :=
  splitWsAux text []

/-- One item of the validation loop of main.py lines 276–289: for each
whitespace token of the submission value, append the submission id to the
valid list if the token validates, else append it to the invalid list.
The accumulator pair is `(valid ids, invalid ids)`. -/
def classifyItem (oracle : List Char → Bool) (hrp : List Char)
    (acc : List String × List String) (item : ZealyItem) :
    List String × List String :=
  (splitWs item.submissionValue.data).foldl
    (fun vi tok =>
      if validateShimmerAddress oracle hrp tok then
        (vi.1 ++ [item.id], vi.2)
      else
        (vi.1, vi.2 ++ [item.id]))
    acc

/-- The whole validation loop over the fetched items, starting from the
empty `valid_addresses_quest_ids` / `invalid_addresses_quest_ids` lists. -/
def classifySubmissions (oracle : List Char → Bool) (hrp : List Char)
    (items : List ZealyItem) : List String × List String :=
  items.foldl (classifyItem oracle hrp) ([], [])

/-- Outcome of one pass of the `while True` body of
`get_smr_address_from_quest_and_verify`. -/
inductive VerifyOutcome where
  /-- The `if not smr_address_quest_completers: return` branch: the
  function returns and the loop ends. -/
  | returns : VerifyOutcome
  /-- The body ran to the `time.sleep(2 * 60)` at the end and the loop
  starts a further iteration; carries the valid/invalid id batches that
  were (conditionally) posted for review. -/
  | nextIteration (validIds invalidIds : List String) : VerifyOutcome
deriving DecidableEq, Repr

/-- Embedding of one iteration of main.py
`get_smr_address_from_quest_and_verify` (lines 262–319): fetch, return on a
falsy result, otherwise classify every submission and fall through to the
sleep, continuing the loop. -/
def verifyStep (oracle : List Char → Bool) (hrp : List Char)
    (fetched : Option ZealyResponse) : VerifyOutcome :=
  match fetched with
  | none => .returns
  | some resp =>
      let vi := classifySubmissions oracle hrp resp.data
      .nextIteration vi.1 vi.2

/-!
## Startup checks (tools.py `basic_checks`, main.py `run_nft_dropper`)

The environment is a partial map from variable names to values
(`os.getenv`).  `basic_checks` first creates the send-history file when
absent, then iterates over a fixed list of nine variable names, returning
`False` at the first one that is unset or empty, `True` otherwise.
-/

/-- The nine environment variables `basic_checks` iterates over
(tools.py lines 401–411). -/
def basicChecksVars : List String :=
  ["STRONGHOLD_PASSWORD", "STRONGHOLD_DB_NAME", "WALLET_DB_NAME",
   "SHIMMER_MNEMONIC", "SHIMMER_ACCOUNT_NAME", "NODE_URL",
   "ZEALY_API_KEY", "ZEALY_SUBDOMAIN", "SHIMMER_ADDRESS_SENT_TO_FILENAME"]

/-- The variable loop of `basic_checks`: `False` at the first variable that
is `None` or the empty string, `True` when the list is exhausted. -/
def basicChecksLoop (env : String → Option String) : List String → Bool
  | [] => true
  | v :: rest =>
    if env v = none ∨ env v = some "" then false
    else basicChecksLoop env rest

/-- The boolean returned by tools.py `basic_checks`. -/
def basicChecks (env : String → Option String) : Bool :=
  basicChecksLoop env basicChecksVars

/-- The file-creation side effect of `basic_checks` (lines 395–398): when
the send-history file does not exist, it is created empty; the function's
effect on "does the history file exist" is this map. -/
def historyFileAfterBasicChecks (existsBefore : Bool) : Bool :=
  if existsBefore then existsBefore else true

/-- Modelled from the spec: the configuration surface the claim lists as
verified — "wallet credentials and db names, mnemonic, account name,
address prefix, node URL, quest-platform subdomain/api-key/quest-ids,
send-history filename" — as environment variable names of tools.py
lines 32–45. -/
def claimedSurfaceVars : List String :=
  ["STRONGHOLD_PASSWORD", "STRONGHOLD_DB_NAME", "WALLET_DB_NAME",
   "SHIMMER_MNEMONIC", "SHIMMER_ACCOUNT_NAME", "SHIMMER_ADDRESS_HRP",
   "NODE_URL", "ZEALY_SUBDOMAIN", "ZEALY_API_KEY",
   "SMR_ADDRESS_QUEST_ID", "NFT_DROP_QUEST_ID",
   "SHIMMER_ADDRESS_SENT_TO_FILENAME"]

/-- Modelled from the spec: "verifies that every environment-sourced
configuration setting of the configuration surface is non-empty". -/
def claimedSurfaceNonEmpty (env : String → Option String) : Bool :=
  claimedSurfaceVars.all (fun v => !(env v = none ∨ env v = some ""))

/-- Embedding of the startup branch of main.py `run_nft_dropper`
(lines 334–340): both arms of the `if basic_checks():` only log, then the
function falls through to `create_shimmer_profile()` and the main loop, so
startup proceeds either way; the result records (log line, proceeds). -/
def runNftDropperStartup (checksOk : Bool) : String × Bool :=
  if checksOk then
    ("Basic checks completed", true)
  else
    ("Make sure to fill out the information in the .env file.", true)

/-!
## Ledger append after a sent batch
(tools.py `send_nfts` lines 147–157 and `write_to_csv`)

After the transaction is included, `send_nfts` reads it back and appends a
CSV row per output — but only when `transaction["networkId"]` equals the
hardcoded string `"1856588631910923207"`, which the comment directly above
labels the *testnet* id; the same comment gives the mainnet id as
`14364762045254553490`.
-/

/-- One row of the send-history ledger, as written by `write_to_csv`:
`[address, nftId, explorer_link, date_time]`. -/
structure SentRecord where
  address : String
  nftId : String
  explorerLink : String
  timestamp : String
deriving DecidableEq, Repr

/-- A transaction output as built in main.py `send_to_address`
(lines 212–230); the fields the ledger path reads back are
`recipientAddress` and `assets.nftId`. -/
structure TokenOutput where
  amount : String
  recipientAddress : String
  expirationUnixTime : Nat
  timelockUnixTime : Nat
  returnStrategy : String
  nftId : String
deriving DecidableEq, Repr

/-- Embedding of tools.py `write_to_csv`: the appended row, with the
explorer link derived from the block id and the formatted current time
passed in. -/
def writeToCsv (addr nftId blockId dateTime : String) : SentRecord :=
  { address := addr
    nftId := nftId
    explorerLink := "https://explorer.shimmer.network/shimmer/block/" ++ blockId
    timestamp := dateTime }

/-- The network id the code's own comment calls "mainnet"
(tools.py line 149). -/
def mainnetNetworkId : String := "14364762045254553490"

/-- The network id the code's own comment calls "testnet"
(tools.py line 150). -/
def testnetNetworkId : String := "1856588631910923207"

/-- Embedding of the ledger-append step of tools.py `send_nfts`
(lines 151–157): the rows appended for a successfully included batch,
given the transaction's network id, the block id and the current time —
one row per output when the network id equals the hardcoded
`"1856588631910923207"`, nothing otherwise. -/
def sendNftsLedgerAppends (networkId blockId dateTime : String)
    (outputs : List TokenOutput) : List SentRecord :=
  if networkId = "1856588631910923207" then
    outputs.map (fun o => writeToCsv o.recipientAddress o.nftId blockId dateTime)
  else
    []

/-!
## Distribution (main.py `send_to_address`, tools.py `get_available_nfts`,
`mint_nfts`)

`send_to_address(addresses)` returns at once on an empty list; otherwise it
computes the cycle timestamps, calls `get_available_nfts()` (which exits
the process when the wallet holds no NFTs), runs the provisioning loop
`while len(addresses) > len(nft_ids) - 1: mint_nfts(...); nft_ids =
get_available_nfts()`, splits the addresses into chunks of 10, and for each
address pops NFT ids from the front of the supply — discarding and skipping
the collection NFT id — until one is assignable or the supply runs dry
(`IndexError`, the address is recorded as unassignable); each chunk's
outputs are sent as one batch.

The wallet is external: the result of the k-th `get_available_nfts` call is
`supply k` of a `SendEnv`.  The provisioning loop need not terminate (a
failing mint leaves the supply unchanged), so it is given fuel; the claims
about it quantify over the fuel.
-/

/-- The external inputs of one `send_to_address` cycle: the NFT id list
returned by the k-th `get_available_nfts` call, the configured collection
NFT id, and the two cycle timestamps (computed once from the clock at
lines 165–173). -/
structure SendEnv where
  supply : Nat → List String
  collectionNftId : String
  expirationUnixTime : Nat
  timelockUnixTime : Nat

/-- Result of a completed (non-fatal, sufficient-fuel) `send_to_address`
run: how many `get_available_nfts` calls were made, the argument of each
`mint_nfts` call, the output batches passed to `send_nfts` (one per chunk,
in order), and the `invalid_rows` list of unassignable addresses. -/
structure SendResult where
  supplyQueries : Nat
  mints : List Int
  batches : List (List TokenOutput)
  invalidRows : List String
deriving DecidableEq, Repr

/-- Outcome of the provisioning phase of `send_to_address`
(lines 179–192). -/
inductive ProvisionOutcome where
  /-- Some `get_available_nfts` call found no NFTs and exited the
  process (tools.py lines 359–363). -/
  | fatalExit : ProvisionOutcome
  /-- The fuel bound on loop iterations was exhausted (the real loop would
  still be running). -/
  | fuelOut : ProvisionOutcome
  /-- The loop condition became false: `queries` calls to
  `get_available_nfts` were made in total, `supply` is the current NFT id
  list, `mints` the arguments of the `mint_nfts` calls in order. -/
  | done (queries : Nat) (supply : List String) (mints : List Int) : ProvisionOutcome
deriving DecidableEq, Repr

/-- Embedding of tools.py `get_available_nfts` at its k-th call:
`sys.exit(1)` (here `none`) when the synced wallet holds no NFTs, else the
NFT id list. -/
def getAvailableNfts (env : SendEnv) (k : Nat) : Option (List String) :=
  if env.supply k = [] then none else some (env.supply k)

/-- The provisioning loop of main.py lines 179–192, unrolled from the k-th
supply fetch with the given iteration fuel: while
`len(addresses) > len(nft_ids) - 1` (Python int arithmetic, so over `Int`),
mint `len(addresses) - (len(nft_ids) - 1)` and refetch. -/
def provisionRun (env : SendEnv) (numAddresses : Nat) :
    Nat → Nat → ProvisionOutcome
  | k, fuel =>
    match getAvailableNfts env k with
    | none => .fatalExit
    | some ids =>
      if (numAddresses : Int) > (ids.length : Int) - 1 then
        match fuel with
        | 0 => .fuelOut
        | fuel' + 1 =>
          match provisionRun env numAddresses (k + 1) fuel' with
          | .fatalExit => .fatalExit
          | .fuelOut => .fuelOut
          | .done q s m =>
              .done q s (((numAddresses : Int) - ((ids.length : Int) - 1)) :: m)
      else
        .done (k + 1) ids []

/-- The inner `while True` of main.py lines 200–231: pop ids from the front
of the supply; an id equal to the collection NFT id is skipped (and stays
popped); the first other id is the assignment.  `none` models the
`IndexError` raised by `pop(0)` on the emptied list; in that case every
element has been popped, so the remaining supply is `[]`. -/
def popUntilAssignable (collectionId : String) :
    List String → Option (String × List String)
  | [] => none
  | nftId :: rest =>
    if nftId = collectionId then popUntilAssignable collectionId rest
    else some (nftId, rest)

/-- The output dict built at main.py lines 212–230 for one assignment. -/
def mkOutput (env : SendEnv) (address nftId : String) : TokenOutput :=
  { amount := "0"
    recipientAddress := address
    expirationUnixTime := env.expirationUnixTime
    timelockUnixTime := env.timelockUnixTime
    returnStrategy := "Gift"
    nftId := nftId }

/-- The `for address in chunk` loop of main.py lines 198–234 over one
chunk, threading the supply: returns the chunk's outputs, the remaining
supply, and the addresses appended to `invalid_rows`. -/
def assignChunk (env : SendEnv) :
    List String → List String → List TokenOutput × List String × List String
  | [], nftIds => ([], nftIds, [])
  | address :: rest, nftIds =>
    match popUntilAssignable env.collectionNftId nftIds with
    | some (nftId, nftIds') =>
        let r := assignChunk env rest nftIds'
        (mkOutput env address nftId :: r.1, r.2)
    | none =>
        let r := assignChunk env rest []
        (r.1, r.2.1, address :: r.2.2)

/-- The `for chunk in chunks` loop of main.py lines 197–240: per chunk,
assign, call `send_nfts(outputs)` (the batch is recorded), reset `outputs`.
Returns (batches, invalid rows). -/
def assignChunks (env : SendEnv) :
    List (List String) → List String → List (List TokenOutput) × List String
  | [], _ => ([], [])
  | chunk :: rest, nftIds =>
    let c := assignChunk env chunk nftIds
    let r := assignChunks env rest c.2.1
    (c.1 :: r.1, c.2.2 ++ r.2)

/-- `[addresses[i:i+10] for i in range(0, len(addresses), 10)]`
(main.py line 195): slices of ten, the final slice possibly shorter.
Written with an explicit ten-element pattern so the recursion is
structural. -/
def chunksOf10 : List String → List (List String)
  | [] => []
  | a1 :: a2 :: a3 :: a4 :: a5 :: a6 :: a7 :: a8 :: a9 :: a10 :: rest =>
      [a1, a2, a3, a4, a5, a6, a7, a8, a9, a10] :: chunksOf10 rest
  | shortTail => [shortTail]

/-- Outcome of one `send_to_address` call. -/
inductive SendOutcome where
  /-- `sys.exit(1)` reached inside `get_available_nfts`. -/
  | fatalExit : SendOutcome
  /-- Provisioning fuel exhausted (the real call would still be inside the
  provisioning loop, having produced no output yet). -/
  | fuelOut : SendOutcome
  /-- The call returned; `r` records its interactions. -/
  | done (r : SendResult) : SendOutcome
deriving DecidableEq, Repr

/-- Embedding of main.py `send_to_address` (lines 140–240): return at once
on an empty list (before any wallet interaction), otherwise provision and
then assign chunk by chunk. -/
def sendToAddress (env : SendEnv) (addresses : List String) (fuel : Nat) :
    SendOutcome :=
  if addresses = [] then
    .done { supplyQueries := 0, mints := [], batches := [], invalidRows := [] }
  else
    match provisionRun env addresses.length 0 fuel with
    | .fatalExit => .fatalExit
    | .fuelOut => .fuelOut
    | .done q nftIds mints =>
        let bi := assignChunks env (chunksOf10 addresses) nftIds
        .done { supplyQueries := q, mints := mints,
                batches := bi.1, invalidRows := bi.2 }

/-!
## Helper lemmas
-/

/-- The `basic_checks` variable loop returns `true` exactly when every
variable of the list is set and non-empty. -/
theorem basicChecksLoop_eq_true_iff (env : String → Option String)
    (l : List String) :
    basicChecksLoop env l = true ↔
      ∀ v ∈ l, env v ≠ none ∧ env v ≠ some "" := by
  induction l with
  | nil => simp [basicChecksLoop]
  | cons v rest ih =>
    unfold basicChecksLoop
    by_cases hv : env v = none ∨ env v = some ""
    · rw [if_pos hv]
      constructor
      · intro h; exact absurd h (by simp)
      · intro h
        exfalso
        have hvv := h v (List.mem_cons_self v rest)
        rcases hv with h1 | h1
        · exact hvv.1 h1
        · exact hvv.2 h1
    · rw [if_neg hv, ih]
      push_neg at hv
      constructor
      · intro h v' hv'
        rcases List.mem_cons.mp hv' with rfl | hmem
        · exact hv
        · exact h v' hmem
      · intro h v' hv'
        exact h v' (List.mem_cons_of_mem _ hv')

/-- Every first-column key of a successfully read history file is in the
key list built by `firstColumns`. -/
theorem mem_of_firstColumns (rows : List (List String)) (ks : List String)
    (h : firstColumns rows = some ks) :
    ∀ row ∈ rows, ∀ a : String, row.head? = some a → a ∈ ks := by
  induction rows generalizing ks with
  | nil => simp
  | cons row rest ih =>
    intro r hr a ha
    unfold firstColumns at h
    cases hrow : row.head? with
    | none => rw [hrow] at h; exact absurd h (by simp)
    | some k =>
      cases hrest : firstColumns rest with
      | none => rw [hrow, hrest] at h; exact absurd h (by simp)
      | some ks' =>
        rw [hrow, hrest] at h
        simp only [Option.some.injEq] at h
        subst h
        rcases List.mem_cons.mp hr with rfl | hmem
        · rw [hrow] at ha
          simp only [Option.some.injEq] at ha
          subst ha
          exact List.mem_cons_self _ _
        · exact List.mem_cons_of_mem _ (ih ks' hrest r hmem a ha)

/-- An id popped by the assignment loop is never the collection NFT id. -/
theorem popUntilAssignable_ne (collectionId : String) (l : List String)
    (nftId : String) (rest : List String)
    (h : popUntilAssignable collectionId l = some (nftId, rest)) :
    nftId ≠ collectionId := by
  induction l with
  | nil => simp [popUntilAssignable] at h
  | cons x xs ih =>
    by_cases hx : x = collectionId
    · rw [popUntilAssignable, if_pos hx] at h
      exact ih h
    · rw [popUntilAssignable, if_neg hx] at h
      simp only [Option.some.injEq, Prod.mk.injEq] at h
      exact h.1 ▸ hx

/-- No output built for one chunk carries the collection NFT id. -/
theorem assignChunk_nftId_ne (env : SendEnv) (chunk supply : List String) :
    ∀ o ∈ (assignChunk env chunk supply).1, o.nftId ≠ env.collectionNftId := by
  induction chunk generalizing supply with
  | nil => simp [assignChunk]
  | cons a rest ih =>
    intro o ho
    unfold assignChunk at ho
    cases hp : popUntilAssignable env.collectionNftId supply with
    | none =>
      rw [hp] at ho
      exact ih [] o ho
    | some p =>
      rw [hp] at ho
      rcases List.mem_cons.mp ho with rfl | hmem
      · exact popUntilAssignable_ne env.collectionNftId supply p.1 p.2 (by
          rw [hp])
      · exact ih p.2 o hmem

/-- No output of any batch carries the collection NFT id. -/
theorem assignChunks_nftId_ne (env : SendEnv) (chunks : List (List String))
    (supply : List String) :
    ∀ batch ∈ (assignChunks env chunks supply).1, ∀ o ∈ batch,
      o.nftId ≠ env.collectionNftId := by
  induction chunks generalizing supply with
  | nil => simp [assignChunks]
  | cons chunk rest ih =>
    intro batch hb o ho
    unfold assignChunks at hb
    rcases List.mem_cons.mp hb with rfl | hmem
    · exact assignChunk_nftId_ne env chunk supply o ho
    · exact ih _ batch hmem o ho

/-- The valid-list contribution of a single submission: one copy of its
claim id per whitespace token that validates. -/
def validContrib (oracle : List Char → Bool) (hrp : List Char)
    (item : ZealyItem) : List String :=
  ((splitWs item.submissionValue.data).filter
    (validateShimmerAddress oracle hrp)).map (fun _ => item.id)

/-- The invalid-list contribution of a single submission: one copy of its
claim id per whitespace token that fails validation. -/
def invalidContrib (oracle : List Char → Bool) (hrp : List Char)
    (item : ZealyItem) : List String :=
  ((splitWs item.submissionValue.data).filter
    (fun tok => !(validateShimmerAddress oracle hrp tok))).map
    (fun _ => item.id)

/-- Processing one submission appends exactly its two contributions to the
running valid/invalid accumulators. -/
theorem classifyItem_eq (oracle : List Char → Bool) (hrp : List Char)
    (acc : List String × List String) (item : ZealyItem) :
    classifyItem oracle hrp acc item =
      (acc.1 ++ validContrib oracle hrp item,
       acc.2 ++ invalidContrib oracle hrp item) := by
  unfold classifyItem validContrib invalidContrib
  generalize splitWs item.submissionValue.data = toks
  induction toks generalizing acc with
  | nil => simp
  | cons t ts ih =>
    by_cases ht : validateShimmerAddress oracle hrp t
    · simp only [List.foldl_cons, ht, if_true, List.filter_cons, ite_true,
        Bool.not_true, Bool.false_eq_true, List.map_cons]
      rw [ih]
      simp [List.append_assoc]
    · simp only [List.foldl_cons, ht, if_false, List.filter_cons,
        Bool.not_eq_true] at *
      simp only [ht, Bool.false_eq_true, ite_false, Bool.not_false, ite_true,
        List.map_cons]
      rw [ih]
      simp [List.append_assoc]

/-- The whole validation loop produces the concatenation of the
per-submission contributions, in submission order. -/
theorem classifySubmissions_eq (oracle : List Char → Bool) (hrp : List Char)
    (items : List ZealyItem) :
    classifySubmissions oracle hrp items =
      (items.flatMap (validContrib oracle hrp),
       items.flatMap (invalidContrib oracle hrp)) := by
  suffices h : ∀ acc : List String × List String,
      items.foldl (classifyItem oracle hrp) acc =
        (acc.1 ++ items.flatMap (validContrib oracle hrp),
         acc.2 ++ items.flatMap (invalidContrib oracle hrp)) by
    simpa [classifySubmissions] using h ([], [])
  induction items with
  | nil => intro acc; simp
  | cons item rest ih =>
    intro acc
    simp only [List.foldl_cons, classifyItem_eq, List.flatMap_cons]
    rw [ih]
    simp [List.append_assoc]

/-- Counting a submission's id in the concatenated contributions of a
duplicate-free submission list counts only its own contribution. -/
theorem count_flatMap_single (f : ZealyItem → List String)
    (hf : ∀ it x, x ∈ f it → x = it.id)
    (items : List ZealyItem) (it : ZealyItem)
    (hnd : (items.map ZealyItem.id).Nodup) (hit : it ∈ items) :
    (items.flatMap f).count it.id = (f it).length := by
  induction items with
  | nil => cases hit
  | cons a rest ih =>
    simp only [List.flatMap_cons, List.count_append]
    simp only [List.map_cons, List.nodup_cons] at hnd
    rcases List.mem_cons.mp hit with rfl | hmem
    · have h1 : (f it).count it.id = (f it).length :=
        List.count_eq_length.mpr (fun b hb => (hf it b hb).symm)
      have h2 : (rest.flatMap f).count it.id = 0 := by
        rw [List.count_eq_zero]
        intro hcontra
        rw [List.mem_flatMap] at hcontra
        obtain ⟨a', ha', hx⟩ := hcontra
        exact hnd.1 ((hf a' _ hx) ▸ List.mem_map_of_mem ZealyItem.id ha')
      rw [h1, h2]
      omega
    · have hne : a.id ≠ it.id := by
        intro heq
        exact hnd.1 (heq ▸ List.mem_map_of_mem ZealyItem.id hmem)
      have h1 : (f a).count it.id = 0 := by
        rw [List.count_eq_zero]
        intro hcontra
        exact hne (hf a _ hcontra).symm
      rw [h1, ih hnd.2 hmem]
      omega

/-- A submission's id appears among the concatenated contributions of a
duplicate-free submission list exactly when its own contribution is
non-empty. -/
theorem mem_flatMap_single_iff (f : ZealyItem → List String)
    (hf : ∀ it x, x ∈ f it → x = it.id)
    (items : List ZealyItem) (it : ZealyItem)
    (hnd : (items.map ZealyItem.id).Nodup) (hit : it ∈ items) :
    it.id ∈ items.flatMap f ↔ f it ≠ [] := by
  rw [List.mem_flatMap]
  constructor
  · rintro ⟨a, ha, hx⟩
    have heq : a = it :=
      List.inj_on_of_nodup_map hnd ha hit ((hf a _ hx).symm)
    subst heq
    intro hnil
    rw [hnil] at hx
    cases hx
  · intro hne
    obtain ⟨x, hx⟩ := List.exists_mem_of_ne_nil (f it) hne
    exact ⟨it, hit, (hf it x hx) ▸ hx⟩

/-- The provisioning loop reaches its exit, with the postcondition, once
the fuel covers the initial shortfall: each iteration's mint strictly
grows the supply, so the shortfall decreases. -/
theorem provisionRun_done_of_fuel (env : SendEnv) (n : Nat)
    (hmint : ∀ k, (env.supply k).length < (env.supply (k + 1)).length) :
    ∀ fuel k : Nat, env.supply k ≠ [] →
      (n : Int) + 1 - ((env.supply k).length : Int) ≤ (fuel : Int) →
      ∃ q s m, provisionRun env n k fuel = .done q s m ∧ n + 1 ≤ s.length := by
  intro fuel
  induction fuel with
  | zero =>
    intro k hk hbound
    have hcond : ¬ ((n : Int) > ((env.supply k).length : Int) - 1) := by omega
    refine ⟨k + 1, env.supply k, [], ?_, ?_⟩
    · unfold provisionRun
      simp [getAvailableNfts, hk, hcond]
    · omega
  | succ f ih =>
    intro k hk hbound
    by_cases hcond : (n : Int) > ((env.supply k).length : Int) - 1
    · have hk1 : env.supply (k + 1) ≠ [] := by
        have hlt := hmint k
        have hpos : 0 < (env.supply k).length := List.length_pos_of_ne_nil hk
        exact List.ne_nil_of_length_pos (by omega)
      have hbound1 : (n : Int) + 1 - ((env.supply (k + 1)).length : Int) ≤
          (f : Int) := by
        have hlt := hmint k
        have : ((env.supply k).length : Int) <
            ((env.supply (k + 1)).length : Int) := by exact_mod_cast hlt
        omega
      obtain ⟨q, s, m, heq, hpost⟩ := ih (k + 1) hk1 hbound1
      refine ⟨q, s,
        ((n : Int) - (((env.supply k).length : Int) - 1)) :: m, ?_, hpost⟩
      unfold provisionRun
      simp [getAvailableNfts, hk, hcond, heq]
    · refine ⟨k + 1, env.supply k, [], ?_, ?_⟩
      · unfold provisionRun
        simp [getAvailableNfts, hk, hcond]
      · omega

/-!
## Claims
-/

/-- A concrete output of a submitted batch, used to evaluate the ledger
gate of `send_nfts`. -/
def sampleBatchOutput : TokenOutput :=
  { amount := "0"
    recipientAddress := "smr1recipient"
    expirationUnixTime := 1714558000
    timelockUnixTime := 1698850000
    returnStrategy := "Gift"
    nftId := "0x0badc0de"
    }

/-- C1: the claim — and the comment at tools.py lines 148–150 — say the
SentRecords are appended exactly when the transaction's network id is the
mainnet/production id `14364762045254553490`, but the code compares against
the hardcoded `"1856588631910923207"`, which that same comment labels
"testnet": for a mainnet transaction nothing is appended, while for a
testnet transaction one row per output is appended. -/
theorem claim1_ledger_gate_uses_testnet_id :
    sendNftsLedgerAppends mainnetNetworkId "block123" "2023-05-01 12:00:00"
      [sampleBatchOutput] = [] ∧
    sendNftsLedgerAppends testnetNetworkId "block123" "2023-05-01 12:00:00"
      [sampleBatchOutput] =
      [{ address := "smr1recipient"
         nftId := "0x0badc0de"
         explorerLink := "https://explorer.shimmer.network/shimmer/block/block123"
         timestamp := "2023-05-01 12:00:00" }] := by
  constructor
  · rfl
  · rfl

/-- C2: for every environment (hence every supply sequence and collection
NFT id), every recipient address list and every provisioning fuel, no
output of any batch constructed by a completed `send_to_address` run
carries the configured collection NFT id: the assignment loop pops ids
from the front of the supply and skips the collection id. -/
theorem claim2_collection_nft_never_assigned (env : SendEnv)
    (addresses : List String) (fuel : Nat) (r : SendResult)
    (h : sendToAddress env addresses fuel = .done r) :
    ∀ batch ∈ r.batches, ∀ o ∈ batch, o.nftId ≠ env.collectionNftId := by
  unfold sendToAddress at h
  by_cases ha : addresses = []
  · rw [if_pos ha] at h
    simp only [SendOutcome.done.injEq] at h
    subst h
    simp
  · rw [if_neg ha] at h
    cases hp : provisionRun env addresses.length 0 fuel with
    | fatalExit => rw [hp] at h; exact absurd h (by simp)
    | fuelOut => rw [hp] at h; exact absurd h (by simp)
    | done q s m =>
      rw [hp] at h
      simp only [SendOutcome.done.injEq] at h
      subst h
      exact assignChunks_nftId_ne env (chunksOf10 addresses) s

/-- A concrete distribution environment: the wallet holds the collection
NFT first in the supply, then two assignable ids. -/
def sampleSendEnv : SendEnv :=
  { supply := fun _ => ["0xc011ec", "0x71", "0x72"]
    collectionNftId := "0xc011ec"
    expirationUnixTime := 1714558000
    timelockUnixTime := 1698850000 }

/-- The result of `send_to_address` on two addresses in
`sampleSendEnv`: the collection id is popped, discarded and skipped; the
two assignable ids go to the two addresses in one batch. -/
def sampleSendResult : SendResult :=
  { supplyQueries := 1
    mints := []
    batches := [[mkOutput sampleSendEnv "smr1aaa" "0x71",
                 mkOutput sampleSendEnv "smr1bbb" "0x72"]]
    invalidRows := [] }

/-- C2 witness: `send_to_address` on the supply
`[collection, t1, t2]` and addresses `[a, b]` completes with `a ← t1`,
`b ← t2`, and indeed no output carries the collection id. -/
theorem claim2_collection_nft_never_assigned_witness :
    sendToAddress sampleSendEnv ["smr1aaa", "smr1bbb"] 0 =
      .done sampleSendResult ∧
    ∀ batch ∈ sampleSendResult.batches, ∀ o ∈ batch,
      o.nftId ≠ sampleSendEnv.collectionNftId :=
  ⟨by decide,
   claim2_collection_nft_never_assigned sampleSendEnv ["smr1aaa", "smr1bbb"]
     0 sampleSendResult (by decide)⟩

/-- C9: whenever `check_if_sent` returns (it raises only when the history
file has a row with no first field), the returned list is a subsequence of
the input address list and contains no address that is the first column of
some history row. -/
theorem claim9_filter_unsent_subseq_disjoint (rows : List (List String))
    (addresses out : List String)
    (h : checkIfSent rows addresses = .ok out) :
    out.Sublist addresses ∧
      ∀ a ∈ out, ∀ row ∈ rows, row.head? ≠ some a := by
  unfold checkIfSent at h
  cases hf : firstColumns rows with
  | none => rw [hf] at h; exact absurd h (by simp)
  | some sent =>
    rw [hf] at h
    simp only [Except.ok.injEq] at h
    subst h
    refine ⟨List.filter_sublist _, ?_⟩
    intro a ha row hrow hsome
    have hmem : a ∈ sent := mem_of_firstColumns rows sent hf row hrow a hsome
    have hpred := List.of_mem_filter ha
    simp only [List.contains, Bool.not_eq_true', List.elem_eq_mem,
      decide_eq_false_iff_not] at hpred
    exact hpred hmem

/-- C9 witness: with history `{"smr1aaa"}` and input
`["smr1aaa", "smr1bbb"]`, the filter returns `["smr1bbb"]`, a subsequence
of the input disjoint from the history. -/
theorem claim9_filter_unsent_subseq_disjoint_witness :
    checkIfSent [["smr1aaa", "0x71", "link", "ts"]] ["smr1aaa", "smr1bbb"] =
      .ok ["smr1bbb"] ∧
    (List.Sublist ["smr1bbb"] ["smr1aaa", "smr1bbb"] ∧
      ∀ a ∈ ["smr1bbb"], ∀ row ∈ [["smr1aaa", "0x71", "link", "ts"]],
        row.head? ≠ some a) :=
  ⟨rfl,
   claim9_filter_unsent_subseq_disjoint [["smr1aaa", "0x71", "link", "ts"]]
     ["smr1aaa", "smr1bbb"] ["smr1bbb"] rfl⟩

/-- C10: `send_to_address` on the empty address list returns before any
wallet interaction: no supply query, no mint, no batch is sent, and the
fatal exit inside `get_available_nfts` is unreachable — for every
environment, including one whose wallet holds no NFTs at all. -/
theorem claim10_empty_addresses_no_effects (env : SendEnv) (fuel : Nat) :
    sendToAddress env [] fuel =
      .done { supplyQueries := 0, mints := [], batches := [],
              invalidRows := [] } ∧
    sendToAddress env [] fuel ≠ .fatalExit :=
  ⟨rfl, fun h => SendOutcome.noConfusion h⟩

/-- C3 counterexample: when the fetch fails (here with a connection
error), `get_zealy_api_data` returns `None`, and the caller
`get_nft_winners` does not treat that as zero records — subscripting
`None['data']` raises an uncaught `TypeError` instead of yielding the
empty winner list the claim asserts. -/
theorem claim3_absent_data_crashes_caller :
    getNftWinners (getZealyApiData (Except.error "ConnectionError")) =
      Except.error "TypeError" ∧
    getNftWinners (getZealyApiData (Except.error "ConnectionError")) ≠
      Except.ok [] :=
  ⟨rfl, fun h => Except.noConfusion h⟩

/-- C3 amended: `get_zealy_api_data` does fail soft (logs and returns
`None` on any transport or parse error), but only the verification-loop
caller survives the absent result — by returning and ending its loop — and
the distribution-path callers `get_nft_winners` and
`get_smr_address_submitters` subscript the absent result and raise an
uncaught `TypeError`; no caller treats the absence as zero records and
continues the cycle. -/
theorem claim3_soft_fail_callers_amended :
    (∀ e : String, getZealyApiData (Except.error e) = none) ∧
    (∀ r : ZealyResponse, getZealyApiData (Except.ok r) = some r) ∧
    getNftWinners none = Except.error "TypeError" ∧
    getSmrAddressSubmitters none = Except.error "TypeError" ∧
    (∀ r : ZealyResponse,
      getNftWinners (some r) = Except.ok (r.data.map (fun item => item.userId))) ∧
    (∀ (oracle : List Char → Bool) (hrp : List Char),
      verifyStep oracle hrp none = VerifyOutcome.returns) :=
  ⟨fun _ => rfl, fun _ => rfl, rfl, rfl, fun _ => rfl, fun _ _ => rfl⟩

/-- C4 counterexample: the verification loop does have a terminal state —
on a falsy fetch result (the `None` produced by a failed fetch) the
`if not smr_address_quest_completers: return` branch ends the loop instead
of proceeding to a further polling iteration. -/
theorem claim4_terminal_state_on_falsy_fetch :
    verifyStep (fun _ => false) "smr".data none = VerifyOutcome.returns :=
  rfl

/-- C4 amended: one iteration of `get_smr_address_from_quest_and_verify`
proceeds to a further polling iteration for every parsed fetch result —
including a response whose data list is empty, i.e. a cycle with no
pending submissions — but returns (a terminal state) exactly on a falsy
fetch result. -/
theorem claim4_verification_loop_amended (oracle : List Char → Bool)
    (hrp : List Char) :
    verifyStep oracle hrp none = VerifyOutcome.returns ∧
    (∀ resp : ZealyResponse,
      verifyStep oracle hrp (some resp) ≠ VerifyOutcome.returns) ∧
    verifyStep oracle hrp (some ⟨[]⟩) = VerifyOutcome.nextIteration [] [] :=
  ⟨rfl, fun _ h => VerifyOutcome.noConfusion h, rfl⟩

/-- C6 counterexample: extraction does not use the configured
human-readable prefix. With the prefix configured as `smr` and the
submission `"use smr1 now"`, a substring consisting of the configured
prefix followed by one or more word characters exists (`smr1`), so the
claim demands it be returned — but the hardcoded pattern `smr1\w+` of the
code finds no match and the record is dropped. -/
theorem claim6_configured_hrp_not_used :
    extractAddressSpec "smr".data "use smr1 now".data = some "smr1".data ∧
    extractAddress "use smr1 now".data = none := by
  constructor
  · rfl
  · rfl

/-- C6 amended: extraction returns the first substring consisting of the
*hardcoded literal* `smr1` followed by one or more word characters (the
pattern `smr1\w+`), or none when no such substring exists — the configured
human-readable prefix plays no part — and `get_smr_address_submitters`
silently drops every record without a match; on the spec's scenario text
`"please use smr1xyz thanks"` it extracts `smr1xyz`. -/
theorem claim6_extraction_amended (items : List ZealyItem) :
    getSmrAddressSubmittersLoop items =
      items.filterMap (fun item =>
        (extractAddress item.submissionValue.data).map
          (fun a => (item.userId, a))) ∧
    (∀ text : List Char,
      extractAddress text = extractAddressSpec "smr1".data text) ∧
    extractAddress "please use smr1xyz thanks".data = some "smr1xyz".data := by
  refine ⟨?_, fun _ => rfl, rfl⟩
  induction items with
  | nil => rfl
  | cons item rest ih =>
    unfold getSmrAddressSubmittersLoop
    cases hx : extractAddress item.submissionValue.data with
    | none => simp [List.filterMap_cons, hx, ih]
    | some a => simp [List.filterMap_cons, hx, ih]

/-- An environment in which every variable is set to `"x"` except the
configured address prefix, which is empty. -/
def envEmptyHrp : String → Option String :=
  fun v => if v = "SHIMMER_ADDRESS_HRP" then some "" else some "x"

/-- C7 counterexample: with every setting non-empty except the address
prefix (one of the settings the claim lists as verified), `basic_checks`
still returns success — it never reads `SHIMMER_ADDRESS_HRP`,
`SMR_ADDRESS_QUEST_ID` or `NFT_DROP_QUEST_ID` — so the failure indication
is not returned exactly when some listed setting is missing or empty. -/
theorem claim7_unchecked_settings :
    basicChecks envEmptyHrp = true ∧
    claimedSurfaceNonEmpty envEmptyHrp = false := by
  constructor
  · rfl
  · rfl

/-- C7 amended: `basic_checks` creates the send-history file when absent
and returns success exactly when the *nine* variables it iterates over
(stronghold password and db name, wallet db name, mnemonic, account name,
node URL, quest-platform api key and subdomain, send-history filename) are
all set and non-empty; the address prefix and the two quest ids are not
checked.  The failure indication never blocks startup: `run_nft_dropper`
logs either way and proceeds. -/
theorem claim7_basic_checks_amended (env : String → Option String)
    (fileExistsBefore : Bool) (checksOk : Bool) :
    (basicChecks env = true ↔
      ∀ v ∈ basicChecksVars, env v ≠ none ∧ env v ≠ some "") ∧
    historyFileAfterBasicChecks fileExistsBefore = true ∧
    (runNftDropperStartup checksOk).2 = true := by
  refine ⟨basicChecksLoop_eq_true_iff env basicChecksVars, ?_, ?_⟩
  · cases fileExistsBefore <;> rfl
  · cases checksOk <;> rfl

/-- C5: in the verification loop, with pairwise-distinct claim ids, a
submission's id lands in the valid review batch exactly when *some*
whitespace token of its text validates, and it appears in the invalid
review batch once per token that fails — so a submission with one valid
and one invalid token is reported both as a pass and as a fail. -/
theorem claim5_per_token_review_batches (oracle : List Char → Bool)
    (hrp : List Char) (items : List ZealyItem) (it : ZealyItem)
    (hnd : (items.map ZealyItem.id).Nodup) (hit : it ∈ items) :
    (it.id ∈ (classifySubmissions oracle hrp items).1 ↔
      ∃ tok ∈ splitWs it.submissionValue.data,
        validateShimmerAddress oracle hrp tok = true) ∧
    (classifySubmissions oracle hrp items).2.count it.id =
      ((splitWs it.submissionValue.data).filter
        (fun tok => !(validateShimmerAddress oracle hrp tok))).length := by
  rw [classifySubmissions_eq]
  have hfv : ∀ it' x, x ∈ validContrib oracle hrp it' → x = it'.id := by
    intro it' x hx
    unfold validContrib at hx
    obtain ⟨tok, _, hid⟩ := List.mem_map.mp hx
    exact hid.symm
  have hfi : ∀ it' x, x ∈ invalidContrib oracle hrp it' → x = it'.id := by
    intro it' x hx
    unfold invalidContrib at hx
    obtain ⟨tok, _, hid⟩ := List.mem_map.mp hx
    exact hid.symm
  constructor
  · rw [mem_flatMap_single_iff (validContrib oracle hrp) hfv items it hnd hit]
    unfold validContrib
    constructor
    · intro hne
      obtain ⟨x, hx⟩ := List.exists_mem_of_ne_nil _ hne
      obtain ⟨tok, htok, _⟩ := List.mem_map.mp hx
      exact ⟨tok, List.mem_of_mem_filter htok, List.of_mem_filter htok⟩
    · rintro ⟨tok, htok, hval⟩
      intro hnil
      rw [List.map_eq_nil_iff] at hnil
      have : tok ∈ (splitWs it.submissionValue.data).filter
          (validateShimmerAddress oracle hrp) :=
        List.mem_filter.mpr ⟨htok, hval⟩
      rw [hnil] at this
      cases this
  · rw [count_flatMap_single (invalidContrib oracle hrp) hfi items it hnd hit]
    unfold invalidContrib
    rw [List.length_map]

/-- The oracle of the C5 witness: accepts exactly the token `smr1ok`. -/
def sampleOracle : List Char → Bool := fun tok => tok == "smr1ok".data

/-- The submission of the C5 witness: one validating token and one
failing token. -/
def mixedSubmission : ZealyItem :=
  { id := "claimid1", userId := "user1", submissionValue := "smr1ok junk" }

/-- C5 witness: on the single pending submission `"smr1ok junk"` the loop
reports the claim id both as a pass (some token validates) and as a fail
(once, for the one failing token): the review batches are
`(["claimid1"], ["claimid1"])`. -/
theorem claim5_per_token_review_batches_witness :
    ([mixedSubmission].map ZealyItem.id).Nodup ∧
    mixedSubmission ∈ [mixedSubmission] ∧
    classifySubmissions sampleOracle "smr".data [mixedSubmission] =
      (["claimid1"], ["claimid1"]) ∧
    ((mixedSubmission.id ∈
        (classifySubmissions sampleOracle "smr".data [mixedSubmission]).1 ↔
      ∃ tok ∈ splitWs mixedSubmission.submissionValue.data,
        validateShimmerAddress sampleOracle "smr".data tok = true) ∧
    (classifySubmissions sampleOracle "smr".data [mixedSubmission]).2.count
        mixedSubmission.id =
      ((splitWs mixedSubmission.submissionValue.data).filter
        (fun tok => !(validateShimmerAddress sampleOracle "smr".data tok))).length) :=
  ⟨by decide, by decide, by decide,
   claim5_per_token_review_batches sampleOracle "smr".data [mixedSubmission]
     mixedSubmission (by decide) (by decide)⟩

/-- C8: assuming every mint strictly grows the available supply and the
wallet starts non-empty (else `get_available_nfts` exits the process
before the loop), the provisioning loop of `send_to_address` terminates —
some finite fuel reaches the `done` exit — and on exit the supply holds at
least one id more than there are addresses, the surplus unit covering the
non-assignable collection NFT. -/
theorem claim8_provisioning_terminates (env : SendEnv) (numAddresses : Nat)
    (h0 : env.supply 0 ≠ [])
    (hmint : ∀ k, (env.supply k).length < (env.supply (k + 1)).length) :
    ∃ fuel q s m, provisionRun env numAddresses 0 fuel = .done q s m ∧
      numAddresses + 1 ≤ s.length := by
  obtain ⟨q, s, m, heq, hpost⟩ :=
    provisionRun_done_of_fuel env numAddresses hmint
      ((numAddresses : Int) + 1 - ((env.supply 0).length : Int)).toNat 0 h0
      (by
        have := Int.self_le_toNat
          ((numAddresses : Int) + 1 - ((env.supply 0).length : Int))
        omega)
  exact ⟨_, q, s, m, heq, hpost⟩

/-- A wallet whose k-th supply fetch returns k+1 NFT ids: every mint
strictly grows the supply. -/
def growingSupplyEnv : SendEnv :=
  { supply := fun k => List.replicate (k + 1) "0x71"
    collectionNftId := "0xc011ec"
    expirationUnixTime := 1714558000
    timelockUnixTime := 1698850000 }

/-- C8 witness: for two addresses against the growing one-per-mint supply,
provisioning terminates with at least three available ids. -/
theorem claim8_provisioning_terminates_witness :
    growingSupplyEnv.supply 0 ≠ [] ∧
    (∀ k, (growingSupplyEnv.supply k).length <
      (growingSupplyEnv.supply (k + 1)).length) ∧
    (∃ fuel q s m, provisionRun growingSupplyEnv 2 0 fuel = .done q s m ∧
      2 + 1 ≤ s.length) := by
  have h0 : growingSupplyEnv.supply 0 ≠ [] := by decide
  have hm : ∀ k, (growingSupplyEnv.supply k).length <
      (growingSupplyEnv.supply (k + 1)).length := by
    intro k
    simp [growingSupplyEnv]
  exact ⟨h0, hm, claim8_provisioning_terminates growingSupplyEnv 2 h0 hm⟩

end Dropper
